import Mathlib

/-!
Verification of `ebay2atom` (`src/main.rs`): a one-shot stdin→stdout transform
from a captured eBay search-results HTML page to an Atom feed.

Shallow embedding. The DOM layer (HTML5 parsing and CSS selector matching,
provided by the `scraper` crate) is abstracted as data: a `Document` records,
for each selector the program uses, the list of matched elements in document
order; an `Element` records its attributes and the text nodes its `.text()`
iterator yields, in order. Everything `main` does with those results — the two
regular expressions, per-fragment extraction, description assembly, and feed
assembly — is embedded concretely, following the source line by line.
Fallible steps (`.unwrap()` on `Option`, which aborts the process) are
modelled by the `Option` monad: `none` is an aborted run, and serialization
(`feed.write_with_config`, the only write to stdout) happens only on `some`.
Timestamps are abstract (`Nat`); `\d` in the Rust regexes is modelled as an
ASCII digit.
-/

/-- A DOM element as the program observes it: its attribute list and the
sequence of text nodes produced by scraper's `.text()` iterator. -/
structure Element where
  attrs : List (String × String)
  texts : List String
deriving DecidableEq, Repr

/-- `element.value().attr(name)` from the `scraper` crate. -/
def Element.attr (e : Element) (name : String) : Option String :=
  (e.attrs.find? (fun p => p.1 == name)).map Prod.snd

/-- One listing fragment (`.s-item__wrapper` match): the results, in document
order, of each per-item selector the loop body runs against it
(`main.rs` lines 99-163). -/
structure Fragment where
  titleMatches : List Element
  linkMatches : List Element
  priceMatches : List Element
  conditionMatches : List Element
  timeLeftMatches : List Element
  purchaseOptionsMatches : List Element
  adMatches : List Element
deriving DecidableEq, Repr

/-- The parsed input page as the program observes it: the raw HTML text (the
base-URL regex runs on the text, not the DOM), the matches of the
search-input selector, and the listing fragments matched by the items
selector, in document order. -/
structure Document where
  rawText : String
  feedTitleInputs : List Element
  items : List Fragment
deriving DecidableEq, Repr

/-- Atom link as built by `LinkBuilder` (`rel`, optional `mime_type`, `href`). -/
structure Link where
  rel : String
  mimeType : Option String
  href : String
deriving DecidableEq, Repr

/-- Atom content block as used by `main` (`content_type`, `value`). -/
structure Content where
  contentType : Option String
  value : String
deriving DecidableEq, Repr

/-- Atom text construct type (`atom_syndication::TextType`). -/
inductive TextType where
  | Text
  | Html
  | Xhtml
deriving DecidableEq, Repr

/-- Atom text construct as built by `TextBuilder`. -/
structure AtomText where
  ttype : TextType
  value : String
deriving DecidableEq, Repr

/-- Atom generator block as built by `GeneratorBuilder`. -/
structure Generator where
  uri : Option String
  version : Option String
  value : String
deriving DecidableEq, Repr

/-- An Atom entry, restricted to the fields `main` sets. -/
structure Entry where
  title : String
  id : String
  links : List Link
  content : Option Content
  updated : Nat
deriving DecidableEq, Repr

/-- The Atom feed, restricted to the fields `main` sets. -/
structure Feed where
  generator : Option Generator
  links : List Link
  title : AtomText
  updated : Nat
  entries : List Entry
deriving DecidableEq, Repr

/-- Modelled from the spec: compiled-in packaging metadata
(`CARGO_PKG_NAME`; the Cargo manifest is not under `src/`). -/
def NAME : String := "ebay2atom"

/-- Modelled from the spec: compiled-in packaging metadata
(`CARGO_PKG_VERSION`; the Cargo manifest is not under `src/`). -/
def VERSION : String := "0.1.0"

/-- Modelled from the spec: compiled-in packaging metadata
(`CARGO_PKG_REPOSITORY`; the Cargo manifest is not under `src/`). -/
def REPOSITORY : String := "https://github.com/aartoni/ebay2atom"

/-! ## The item-URL regex `https.+(\d{10})` (`main.rs` line 86)

Rust-regex (leftmost-first, Perl-style priority) semantics on this pattern:
the match starts at the leftmost position where the whole pattern can match;
`https` is literal; `.+` greedily matches one or more non-newline characters,
backtracking from the longest, so the 10-digit group is the *last* run of ten
consecutive digits reachable without crossing a newline. -/

/-- `pat` occurs literally in `cs` at position `i`. -/
def litAt (pat : List Char) (cs : List Char) (i : Nat) : Bool :=
  (cs.drop i).take pat.length == pat

/-- Ten consecutive ASCII digits occur in `cs` at position `j`. -/
def tenDigitsAt (cs : List Char) (j : Nat) : Bool :=
  let seg := (cs.drop j).take 10
  seg.length == 10 && seg.all Char.isDigit

/-- Position `j` is a valid end for a match starting at `i`: `.+` covers
`cs[i+5..j]` (nonempty, newline-free) and ten digits follow at `j`. -/
def validEnd (cs : List Char) (i j : Nat) : Bool :=
  i + 6 ≤ j && ((cs.drop (i + 5)).take (j - (i + 5))).all (fun c => c != '\n')
    && tenDigitsAt cs j

/-- All valid digit-group start positions for a match starting at `i`,
in increasing order. -/
def candEnds (cs : List Char) (i : Nat) : List Nat :=
  (List.range (cs.length + 1)).filter (fun j => validEnd cs i j)

/-- The leftmost start position at which the whole pattern matches. -/
def matchStart (cs : List Char) : Option Nat :=
  (List.range (cs.length + 1)).find?
    (fun i => litAt "https".data cs i && !(candEnds cs i).isEmpty)

/-- `url_regex.captures(s)` for `https.+(\d{10})`: `some (whole, group1)`
with `whole` the full match (capture group 0) and `group1` the ten digits,
or `none` when the regex does not match (the program then aborts at the
`unwrap` on line 118). -/
def urlRegexCaptures (s : String) : Option (String × String) :=
  match matchStart s.data with
  | none => none
  | some i =>
    match (candEnds s.data i).getLast? with
    | none => none
    | some j =>
      some (⟨(s.data.drop i).take (j + 10 - i)⟩, ⟨(s.data.drop j).take 10⟩)

/-! ## The base-URL regex `baseUrl":"(https://[^&]+).*?"` (`main.rs` line 43)

Literal `baseUrl":"`, then the capture group: literal `https://` followed by a
greedy run of one or more non-`&` characters (a negated class also matches
newlines), then lazily any non-newline characters up to a closing quote.
Greedy backtracking gives the group the longest non-`&` run after which a
quote is still reachable without crossing a newline. -/

/-- Length of the maximal run of non-`&` characters starting at `p`. -/
def noAmpRun (cs : List Char) (p : Nat) : Nat :=
  ((cs.drop p).takeWhile (fun c => c != '&')).length

/-- The lazy tail `.*?"` matches starting at `e`: a quote is reachable from
`e` through non-newline characters. -/
def lazyQuoteOk (cs : List Char) (e : Nat) : Bool :=
  let seg := cs.drop e
  let pre := seg.takeWhile (fun c => c != '\x22' && c != '\n')
  match seg.drop pre.length with
  | c :: _ => c == '\x22'
  | [] => false

/-- `k` characters is a valid extent for the `[^&]+` run starting at `p0`. -/
def validRunLen (cs : List Char) (p0 k : Nat) : Bool :=
  1 ≤ k && k ≤ noAmpRun cs p0 && lazyQuoteOk cs (p0 + k)

/-- The greedy (longest valid) extent of the `[^&]+` run starting at `p0`. -/
def bestRunLen (cs : List Char) (p0 : Nat) : Option Nat :=
  ((List.range (noAmpRun cs p0 + 1)).filter (validRunLen cs p0)).getLast?

/-- The whole base-URL pattern matches starting at `i`. -/
def linkStartOk (cs : List Char) (i : Nat) : Bool :=
  litAt "baseUrl\x22:\x22".data cs i && litAt "https://".data cs (i + 10)
    && (bestRunLen cs (i + 18)).isSome

/-- `link_regex.captures(&html)...get(1)`: the first capture group of the
base-URL pattern against the raw HTML text, or `none` when it does not match
(the program then aborts at the `unwrap` on line 44). -/
def linkRegexCapture (s : String) : Option String :=
  match (List.range (s.data.length + 1)).find? (linkStartOk s.data) with
  | none => none
  | some i =>
    (bestRunLen s.data (i + 18)).map
      (fun k => ⟨(s.data.drop (i + 10)).take (8 + k)⟩)

/-! ## Per-fragment extraction (`main.rs` lines 92-171) -/

/-- The fixed opening of every description (`main.rs` line 96). -/
def divOpen : String := "<div xmlns=\x22http://www.w3.org/1999/xhtml\x22>"

/-- One optional attribute (`main.rs` lines 142-163): if the selector has no
match, the description is unchanged; if it matches, the first text node is
`unwrap`ped (aborting when there is none) and a `<p>label: value</p>` line is
appended. -/
def optField (label : String) (ms : List Element) (desc : String) :
    Option String :=
  match ms.head? with
  | none => some desc
  | some el =>
    match el.texts.head? with
    | none => none
    | some t => some (desc ++ "<p>" ++ label ++ ": " ++ t ++ "</p>")

/-- The loop body (`main.rs` lines 92-171): build one entry from one listing
fragment, `none` on any `unwrap` failure. -/
def extractEntry (updateTime : Nat) (item : Fragment) : Option Entry := do
  let titleEl ← item.titleMatches.head?
  let title ← titleEl.texts.getLast?
  let linkEl ← item.linkMatches.head?
  let href ← linkEl.attr "href"
  let caps ← urlRegexCaptures href
  let itemUrl := caps.1
  let priceEl ← item.priceMatches.head?
  let price ← priceEl.texts.head?
  let d1 := divOpen ++ "<p>Price: " ++ price ++ "</p>"
  let d2 ← optField "Condition" item.conditionMatches d1
  let d3 ← optField "Time left" item.timeLeftMatches d2
  let d4 ← optField "Purchase options" item.purchaseOptionsMatches d3
  let d5 ← optField "Ad" item.adMatches d4
  pure
    { title := title
      id := itemUrl
      links := [{ rel := "alternate", mimeType := some "text/html",
                  href := itemUrl }]
      content := some { contentType := some "xhtml", value := d5 ++ "</div>" }
      updated := updateTime }

/-- The `for item in document.select(&items_selector)` loop: entries are
pushed in document order; any failure aborts the whole run. -/
def extractEntries (updateTime : Nat) : List Fragment → Option (List Entry)
  | [] => some []
  | item :: rest => do
    let e ← extractEntry updateTime item
    let es ← extractEntries updateTime rest
    pure (e :: es)

/-- `main` (`main.rs` lines 31-181) up to the single write to stdout: page
metadata, then the entry loop, then feed assembly. `none` means the process
aborted before `feed.write_with_config` ran, so zero bytes reach the output
stream; `some feed` is the document that is then serialized. -/
def run (doc : Document) (updateTime : Nat) : Option Feed := do
  let input ← doc.feedTitleInputs.head?
  let feedTitle ← input.attr "value"
  let feedLinkHref ← linkRegexCapture doc.rawText
  let entries ← extractEntries updateTime doc.items
  pure
    { generator := some { uri := some REPOSITORY, version := some VERSION,
                          value := NAME }
      links := [{ rel := "alternate", mimeType := some "text/html",
                  href := feedLinkHref }]
      title := { ttype := TextType.Text, value := feedTitle }
      updated := updateTime
      entries := entries }

/-! ## Predicates used in the claims -/

/-- The fragment lacks the mandatory title field: no element matches the
title selector, or the first match has no text node (either way the
`unwrap` on lines 102/105 aborts). -/
def lacksTitle (frag : Fragment) : Prop :=
  frag.titleMatches.head? = none ∨
    ∃ el, frag.titleMatches.head? = some el ∧ el.texts = []

/-- The fragment lacks the mandatory link field: no element matches the link
selector, or the first match has no `href` attribute (lines 113/116). -/
def lacksLink (frag : Fragment) : Prop :=
  frag.linkMatches.head? = none ∨
    ∃ el, frag.linkMatches.head? = some el ∧ el.attr "href" = none

/-- The fragment lacks the mandatory price field: no element matches the
price selector, or the first match has no text node (lines 134/137). -/
def lacksPrice (frag : Fragment) : Prop :=
  frag.priceMatches.head? = none ∨
    ∃ el, frag.priceMatches.head? = some el ∧ el.texts = []

/-- The fragment lacks one of the three mandatory fields. -/
def lacksMandatoryField (frag : Fragment) : Prop :=
  lacksTitle frag ∨ lacksLink frag ∨ lacksPrice frag

/-- Every first match of this optional selector, if any, has a text node. -/
def presentHasText (ms : List Element) : Prop :=
  ∀ el, ms.head? = some el → el.texts ≠ []

/-- All four optional attributes are extractable when present. -/
def optionalsOk (frag : Fragment) : Prop :=
  presentHasText frag.conditionMatches ∧ presentHasText frag.timeLeftMatches
    ∧ presentHasText frag.purchaseOptionsMatches
    ∧ presentHasText frag.adMatches

/-- All three mandatory fields are extractable, and the item-URL regex
matches the href. -/
def mandatoryOk (frag : Fragment) : Prop :=
  (∃ el s, frag.titleMatches.head? = some el ∧ el.texts.getLast? = some s)
    ∧ (∃ el h c, frag.linkMatches.head? = some el ∧ el.attr "href" = some h
        ∧ urlRegexCaptures h = some c)
    ∧ (∃ el s, frag.priceMatches.head? = some el ∧ el.texts.head? = some s)

/-- Some optional attribute element is present but has no text node. -/
def optionalPresentEmptyText (frag : Fragment) : Prop :=
  (∃ el, frag.conditionMatches.head? = some el ∧ el.texts = [])
    ∨ (∃ el, frag.timeLeftMatches.head? = some el ∧ el.texts = [])
    ∨ (∃ el, frag.purchaseOptionsMatches.head? = some el ∧ el.texts = [])
    ∨ (∃ el, frag.adMatches.head? = some el ∧ el.texts = [])

/-- The text value an optional attribute contributes: first text node of the
first match, when both exist. -/
def optText (ms : List Element) : Option String :=
  ms.head?.bind (fun el => el.texts.head?)

/-- The description line an optional field contributes: nothing when absent,
`<p>label: value</p>` when present. -/
def optLine (label : String) : Option String → String
  | none => ""
  | some v => "<p>" ++ label ++ ": " ++ v ++ "</p>"

/-! ## Concrete fixtures for witnesses and counterexamples -/

/-- A title element with a leading promotional label before the real title. -/
def exTitleEl : Element := ⟨[], ["New Listing", "Widget"]⟩

/-- A link anchor whose href carries a tracking suffix after the item id. -/
def exLinkEl : Element :=
  ⟨[("href", "https://www.ebay.com/itm/1234567890?hash=xyz")], []⟩

/-- A complete listing fragment with all optional attributes present. -/
def exFrag : Fragment :=
  { titleMatches := [exTitleEl]
    linkMatches := [exLinkEl]
    priceMatches := [⟨[], ["$10"]⟩]
    conditionMatches := [⟨[], ["New"]⟩]
    timeLeftMatches := [⟨[], ["2d left"]⟩]
    purchaseOptionsMatches := [⟨[], ["Buy it now"]⟩]
    adMatches := [⟨[], ["Sponsored"]⟩] }

/-- The entry the program extracts from `exFrag`. -/
def exEntry : Entry :=
  { title := "Widget"
    id := "https://www.ebay.com/itm/1234567890"
    links := [{ rel := "alternate", mimeType := some "text/html",
                href := "https://www.ebay.com/itm/1234567890" }]
    content := some { contentType := some "xhtml"
                      value := divOpen ++ "<p>Price: $10</p>"
                        ++ "<p>Condition: New</p><p>Time left: 2d left</p>"
                        ++ "<p>Purchase options: Buy it now</p>"
                        ++ "<p>Ad: Sponsored</p></div>" }
    updated := 7 }

/-- `exFrag` with the price element missing entirely. -/
def exFragNoPrice : Fragment := { exFrag with priceMatches := [] }

/-- A document whose single listing fragment lacks a price. -/
def exDocBad : Document :=
  { rawText :=
      "x baseUrl\x22:\x22https://www.ebay.com/sch/i.html?_nkw=widget&_s=0\x22 y"
    feedTitleInputs := [⟨[("value", "widget")], []⟩]
    items := [exFragNoPrice] }

/-- A well-formed document with one complete listing fragment. -/
def exDoc : Document := { exDocBad with items := [exFrag] }

/-- The feed the program emits for `exDoc`. -/
def exFeed : Feed :=
  { generator := some { uri := some REPOSITORY, version := some VERSION,
                        value := NAME }
    links := [{ rel := "alternate", mimeType := some "text/html",
                href := "https://www.ebay.com/sch/i.html?_nkw=widget" }]
    title := { ttype := TextType.Text, value := "widget" }
    updated := 7
    entries := [exEntry] }

/-- `exFrag` with a condition element present but holding no text node. -/
def exFragEmptyCond : Fragment :=
  { exFrag with conditionMatches := [⟨[], []⟩] }

/-- An anchor href carrying a digit-bearing tracking suffix after the id. -/
def trackHref : String :=
  "https://www.ebay.com/itm/1234567890?campid=123456789012345"

/-- `exFrag` with the tracking-suffix href. -/
def exFragTracking : Fragment :=
  { exFrag with linkMatches := [⟨[("href", trackHref)], []⟩] }

/-- The entry extracted from `exFragTracking`: its id and link run all the
way to the end of the href, past the 36th character. -/
def exEntryTracking : Entry :=
  { exEntry with
    id := trackHref
    links := [{ rel := "alternate", mimeType := some "text/html",
                href := trackHref }] }

/-- `exFrag` with an href the item-URL regex cannot match. -/
def exFragNoDigits : Fragment :=
  { exFrag with linkMatches := [⟨[("href", "https://example.com/nodigits")], []⟩] }

/-! ## Helper lemmas -/

/-- Inversion of the loop body: a successfully extracted entry determines the
full chain of selector results and description steps it was built from. -/
theorem extractEntry_eq_some (t : Nat) (frag : Fragment) (e : Entry)
    (h : extractEntry t frag = some e) :
    ∃ titleEl title linkEl href caps priceEl price d2 d3 d4 d5,
      frag.titleMatches.head? = some titleEl
        ∧ titleEl.texts.getLast? = some title
        ∧ frag.linkMatches.head? = some linkEl
        ∧ linkEl.attr "href" = some href
        ∧ urlRegexCaptures href = some caps
        ∧ frag.priceMatches.head? = some priceEl
        ∧ priceEl.texts.head? = some price
        ∧ optField "Condition" frag.conditionMatches
            (divOpen ++ "<p>Price: " ++ price ++ "</p>") = some d2
        ∧ optField "Time left" frag.timeLeftMatches d2 = some d3
        ∧ optField "Purchase options" frag.purchaseOptionsMatches d3 = some d4
        ∧ optField "Ad" frag.adMatches d4 = some d5
        ∧ e = { title := title
                id := caps.1
                links := [{ rel := "alternate", mimeType := some "text/html",
                            href := caps.1 }]
                content := some { contentType := some "xhtml",
                                  value := d5 ++ "</div>" }
                updated := t } := by
  simp only [extractEntry, Option.bind_eq_bind, Option.bind_eq_some,
    Option.pure_def, Option.some.injEq] at h
  obtain ⟨tEl, hT, ti, hTi, lEl, hL, href, hH, caps, hC, pEl, hP, p, hPt,
    d2, hD2, d3, hD3, d4, hD4, d5, hD5, he⟩ := h
  exact ⟨tEl, ti, lEl, href, caps, pEl, p, d2, d3, d4, d5, hT, hTi, hL, hH,
    hC, hP, hPt, hD2, hD3, hD4, hD5, he.symm⟩

/-- A fragment missing a mandatory field makes the loop body abort. -/
theorem extractEntry_none_of_lacks (t : Nat) (frag : Fragment)
    (h : lacksMandatoryField frag) : extractEntry t frag = none := by
  rcases h with h | h | h
  · rcases h with h | ⟨el, hel, hts⟩
    · simp [extractEntry, h]
    · simp [extractEntry, hel, hts]
  · rcases h with h | ⟨el, hel, hattr⟩
    · cases h1 : frag.titleMatches.head? with
      | none => simp [extractEntry, h1]
      | some tEl =>
        cases h2 : tEl.texts.getLast? with
        | none => simp [extractEntry, h1, h2]
        | some ti => simp [extractEntry, h1, h2, h]
    · cases h1 : frag.titleMatches.head? with
      | none => simp [extractEntry, h1]
      | some tEl =>
        cases h2 : tEl.texts.getLast? with
        | none => simp [extractEntry, h1, h2]
        | some ti => simp [extractEntry, h1, h2, hel, hattr]
  · rcases h with h | ⟨el, hel, hts⟩ <;>
    · cases h1 : frag.titleMatches.head? with
      | none => simp [extractEntry, h1]
      | some tEl =>
        cases h2 : tEl.texts.getLast? with
        | none => simp [extractEntry, h1, h2]
        | some ti =>
          cases h3 : frag.linkMatches.head? with
          | none => simp [extractEntry, h1, h2, h3]
          | some lEl =>
            cases h4 : lEl.attr "href" with
            | none => simp [extractEntry, h1, h2, h3, h4]
            | some href =>
              cases h5 : urlRegexCaptures href with
              | none => simp [extractEntry, h1, h2, h3, h4, h5]
              | some caps =>
                first
                | simp [extractEntry, h1, h2, h3, h4, h5, h]
                | simp [extractEntry, h1, h2, h3, h4, h5, hel, hts]

/-- A failing fragment anywhere in the list makes the whole loop abort. -/
theorem extractEntries_none_of_mem (t : Nat) (frag : Fragment)
    (l : List Fragment) (hmem : frag ∈ l)
    (hnone : extractEntry t frag = none) : extractEntries t l = none := by
  induction l with
  | nil => cases hmem
  | cons a rest ih =>
    rcases List.mem_cons.mp hmem with h | h
    · subst h
      simp [extractEntries, hnone]
    · cases h1 : extractEntry t a with
      | none => simp [extractEntries, h1]
      | some e => simp [extractEntries, h1, ih h]

/-- A successful loop relates fragments and entries pointwise, in order. -/
theorem extractEntries_forall2 (t : Nat) (l : List Fragment)
    (es : List Entry) (h : extractEntries t l = some es) :
    List.Forall₂ (fun frag e => extractEntry t frag = some e) l es := by
  induction l generalizing es with
  | nil =>
    simp only [extractEntries, Option.some.injEq] at h
    subst h
    exact List.Forall₂.nil
  | cons a rest ih =>
    simp only [extractEntries, Option.bind_eq_bind, Option.bind_eq_some,
      Option.pure_def, Option.some.injEq] at h
    obtain ⟨e, he, es', hes', heq⟩ := h
    subst heq
    exact List.Forall₂.cons he (ih es' hes')

/-- Inversion of `run`: a produced feed determines the page metadata and the
entry list it was assembled from. -/
theorem run_eq_some (doc : Document) (t : Nat) (feed : Feed)
    (h : run doc t = some feed) :
    ∃ input v href es,
      doc.feedTitleInputs.head? = some input
        ∧ input.attr "value" = some v
        ∧ linkRegexCapture doc.rawText = some href
        ∧ extractEntries t doc.items = some es
        ∧ feed.links = [{ rel := "alternate", mimeType := some "text/html",
                          href := href }]
        ∧ feed.title = { ttype := TextType.Text, value := v }
        ∧ feed.updated = t
        ∧ feed.entries = es := by
  simp only [run, Option.bind_eq_bind, Option.bind_eq_some, Option.pure_def,
    Option.some.injEq] at h
  obtain ⟨input, hI, v, hV, href, hH, es, hE, he⟩ := h
  subst he
  exact ⟨input, v, href, es, hI, hV, hH, hE, rfl, rfl, rfl, rfl⟩

/-- An optional field whose first match has no text node aborts extraction. -/
theorem optField_none_of_empty (label : String) (ms : List Element)
    (el : Element) (hel : ms.head? = some el) (hts : el.texts = [])
    (desc : String) : optField label ms desc = none := by
  simp [optField, hel, hts]

/-- When every present match has text, an optional field appends exactly its
`optLine` to the description. -/
theorem optField_eq_optLine {ms : List Element} (h : presentHasText ms)
    (label desc : String) :
    optField label ms desc = some (desc ++ optLine label (optText ms)) := by
  cases hel : ms.head? with
  | none => simp [optField, hel, optText, optLine]
  | some el =>
    cases hts : el.texts with
    | nil => exact absurd hts (h el hel)
    | cons a l =>
      simp [optField, hel, hts, optText, optLine, String.append_assoc]

/-- Splitting a `take` of a sum into two consecutive blocks. -/
theorem take_add_eq {α : Type} (m n : Nat) (l : List α) :
    l.take (m + n) = l.take m ++ (l.drop m).take n := by
  induction m generalizing l with
  | zero => simp
  | succ k ih =>
    cases l with
    | nil => simp
    | cons a t => simp [Nat.succ_add, ih t]

/-- Structure of a successful item-URL regex match: the group is ten ASCII
digits and the whole match (capture group 0) ends with the group. -/
theorem urlRegexCaptures_group (s w g : String)
    (h : urlRegexCaptures s = some (w, g)) :
    g.length = 10 ∧ g.data.all Char.isDigit = true ∧ ∃ pre, w = pre ++ g := by
  unfold urlRegexCaptures at h
  cases hm : matchStart s.data with
  | none => rw [hm] at h; cases h
  | some i =>
    rw [hm] at h
    dsimp only at h
    cases hj : (candEnds s.data i).getLast? with
    | none => rw [hj] at h; cases h
    | some j =>
      rw [hj] at h
      dsimp only at h
      rw [Option.some.injEq, Prod.mk.injEq] at h
      obtain ⟨hw, hg⟩ := h
      have hjmem : j ∈ candEnds s.data i := List.mem_of_getLast?_eq_some hj
      have hv : validEnd s.data i j = true := (List.mem_filter.mp hjmem).2
      unfold validEnd at hv
      simp only [Bool.and_eq_true, decide_eq_true_eq] at hv
      obtain ⟨⟨hle, _⟩, hten⟩ := hv
      unfold tenDigitsAt at hten
      simp only [Bool.and_eq_true, beq_iff_eq] at hten
      obtain ⟨hlen, hdig⟩ := hten
      have hile : i ≤ j := by omega
      refine ⟨?_, ?_, ⟨⟨(s.data.drop i).take (j - i)⟩, ?_⟩⟩
      · rw [← hg]
        exact hlen
      · rw [← hg]
        exact hdig
      · rw [← hw, ← hg]
        have hsplit : (s.data.drop i).take (j + 10 - i)
            = (s.data.drop i).take (j - i) ++ ((s.data.drop i).drop (j - i)).take 10 := by
          have : j + 10 - i = (j - i) + 10 := by omega
          rw [this]
          exact take_add_eq (j - i) 10 (s.data.drop i)
        have hdd : (s.data.drop i).drop (j - i) = s.data.drop j := by
          rw [List.drop_drop]
          congr 1
          omega
        rw [hsplit, hdd]
        rfl

/-- A successfully extracted entry carries the batch timestamp. -/
theorem extractEntry_updated (t : Nat) (frag : Fragment) (e : Entry)
    (h : extractEntry t frag = some e) : e.updated = t := by
  obtain ⟨_, _, _, _, _, _, _, _, _, _, _, _, _, _, _, _, _, _, _, _, _, _,
    he⟩ := extractEntry_eq_some t frag e h
  rw [he]

/-- Every entry produced by the loop carries the batch timestamp. -/
theorem extractEntries_updated (t : Nat) (l : List Fragment) (es : List Entry)
    (h : extractEntries t l = some es) : ∀ e ∈ es, e.updated = t := by
  induction l generalizing es with
  | nil =>
    simp only [extractEntries, Option.some.injEq] at h
    subst h
    simp
  | cons a rest ih =>
    simp only [extractEntries, Option.bind_eq_bind, Option.bind_eq_some,
      Option.pure_def, Option.some.injEq] at h
    obtain ⟨e, he, es', hes', heq⟩ := h
    subst heq
    intro x hx
    rcases List.mem_cons.mp hx with hx | hx
    · subst hx
      exact extractEntry_updated t a x he
    · exact ih es' hes' x hx

set_option maxRecDepth 8000 in
/-- The loop body's output on the complete fixture fragment. -/
theorem extract_exFrag : extractEntry 7 exFrag = some exEntry := by decide

set_option maxRecDepth 8000 in
/-- The program's output on the complete one-item fixture document. -/
theorem run_exDoc : run exDoc 7 = some exFeed := by decide

/-! ## Claim theorems -/

/-- C2: if any listing fragment lacks a mandatory field (title, link or
price), the run aborts: `run` is `none`, so `feed.write_with_config` — the
only write to the output stream — never executes and zero bytes are written.
Serialization happens only after all records are extracted, so no partial
feed is ever emitted. -/
theorem c2_missing_mandatory_aborts_run (doc : Document) (t : Nat)
    (frag : Fragment) (hmem : frag ∈ doc.items)
    (hlacks : lacksMandatoryField frag) : run doc t = none := by
  have hE := extractEntries_none_of_mem t frag doc.items hmem
    (extractEntry_none_of_lacks t frag hlacks)
  cases h1 : doc.feedTitleInputs.head? with
  | none => simp [run, h1]
  | some input =>
    cases h2 : input.attr "value" with
    | none => simp [run, h1, h2]
    | some v =>
      cases h3 : linkRegexCapture doc.rawText with
      | none => simp [run, h1, h2, h3]
      | some href => simp [run, h1, h2, h3, hE]

/-- Witness for C2: the fixture document whose single fragment has no price
element produces no feed at all. -/
theorem c2_witness : run exDocBad 7 = none :=
  c2_missing_mandatory_aborts_run exDocBad 7 exFragNoPrice
    (by simp [exDocBad]) (Or.inr (Or.inr (Or.inl rfl)))

/-- C3: a successful run emits exactly one entry per fragment matched by the
listing selector, pointwise in the same relative order as the fragments
appear in the document. -/
theorem c3_entry_count_and_order (doc : Document) (t : Nat) (feed : Feed)
    (h : run doc t = some feed) :
    feed.entries.length = doc.items.length
      ∧ List.Forall₂ (fun frag e => extractEntry t frag = some e)
          doc.items feed.entries := by
  obtain ⟨input, v, href, es, hI, hV, hH, hE, hlinks, htitle, hupd, hent⟩ :=
    run_eq_some doc t feed h
  have hf := extractEntries_forall2 t doc.items es hE
  rw [hent]
  exact ⟨hf.length_eq.symm, hf⟩

/-- Witness for C3 at the one-item fixture. -/
theorem c3_witness :
    exFeed.entries.length = exDoc.items.length
      ∧ List.Forall₂ (fun frag e => extractEntry 7 frag = some e)
          exDoc.items exFeed.entries :=
  c3_entry_count_and_order exDoc 7 exFeed run_exDoc

/-- C5: the title of every extracted entry is the last text node under the
first element matching the title selector in its fragment, so a leading
promotional label text node is skipped when present. -/
theorem c5_title_is_last_text_of_first_match (t : Nat) (frag : Fragment)
    (e : Entry) (h : extractEntry t frag = some e) :
    ∃ el, frag.titleMatches.head? = some el
      ∧ el.texts.getLast? = some e.title := by
  obtain ⟨tEl, ti, _, _, _, _, _, _, _, _, _, hT, hTi, _, _, _, _, _, _, _,
    _, _, he⟩ := extractEntry_eq_some t frag e h
  exact ⟨tEl, hT, by rw [he]; exact hTi⟩

/-- Witness for C5: the fixture title element's text nodes are
`["New Listing", "Widget"]` and the entry title is `"Widget"`. -/
theorem c5_witness :
    ∃ el, exFrag.titleMatches.head? = some el
      ∧ el.texts.getLast? = some exEntry.title :=
  c5_title_is_last_text_of_first_match 7 exFrag exEntry extract_exFrag

/-- C6: the feed and every entry of one run carry the same single batch
timestamp, the one `run` was invoked with; it is never re-read per item. -/
theorem c6_single_batch_timestamp (doc : Document) (t : Nat) (feed : Feed)
    (h : run doc t = some feed) :
    feed.updated = t ∧ ∀ e ∈ feed.entries, e.updated = t := by
  obtain ⟨input, v, href, es, hI, hV, hH, hE, hlinks, htitle, hupd, hent⟩ :=
    run_eq_some doc t feed h
  refine ⟨hupd, ?_⟩
  rw [hent]
  exact extractEntries_updated t doc.items es hE

/-- Witness for C6 at the one-item fixture. -/
theorem c6_witness :
    exFeed.updated = 7 ∧ ∀ e ∈ exFeed.entries, e.updated = 7 :=
  c6_single_batch_timestamp exDoc 7 exFeed run_exDoc

/-- C7: the feed carries exactly one feed-level alternate link, whose href is
the first capture group of the base-URL pattern matched against the raw HTML
text, and a plain-text feed title equal to the `value` attribute of the first
element matching the search-input selector. -/
theorem c7_feed_link_and_title (doc : Document) (t : Nat) (feed : Feed)
    (h : run doc t = some feed) :
    ∃ href, linkRegexCapture doc.rawText = some href
      ∧ feed.links = [{ rel := "alternate", mimeType := some "text/html",
                        href := href }]
      ∧ ∃ el v, doc.feedTitleInputs.head? = some el
          ∧ el.attr "value" = some v
          ∧ feed.title = { ttype := TextType.Text, value := v } := by
  obtain ⟨input, v, href, es, hI, hV, hH, hE, hlinks, htitle, hupd, hent⟩ :=
    run_eq_some doc t feed h
  exact ⟨href, hH, hlinks, input, v, hI, hV, htitle⟩

/-- Witness for C7 at the one-item fixture. -/
theorem c7_witness :
    ∃ href, linkRegexCapture exDoc.rawText = some href
      ∧ exFeed.links = [{ rel := "alternate", mimeType := some "text/html",
                          href := href }]
      ∧ ∃ el v, exDoc.feedTitleInputs.head? = some el
          ∧ el.attr "value" = some v
          ∧ exFeed.title = { ttype := TextType.Text, value := v } :=
  c7_feed_link_and_title exDoc 7 exFeed run_exDoc

/-- C9: every extracted entry has exactly one alternate link, and its href is
the very string stored as the entry's id — both come from the same extracted
URL. -/
theorem c9_entry_id_equals_link_href (t : Nat) (frag : Fragment) (e : Entry)
    (h : extractEntry t frag = some e) :
    e.links = [{ rel := "alternate", mimeType := some "text/html",
                 href := e.id }] := by
  obtain ⟨_, _, _, _, _, _, _, _, _, _, _, _, _, _, _, _, _, _, _, _, _, _,
    he⟩ := extractEntry_eq_some t frag e h
  rw [he]

/-- Witness for C9 at the fixture fragment. -/
theorem c9_witness :
    exEntry.links = [{ rel := "alternate", mimeType := some "text/html",
                       href := exEntry.id }] :=
  c9_entry_id_equals_link_href 7 exFrag exEntry extract_exFrag

/-- C10: an optional attribute element (condition, time-left,
purchase-options or ad-label) that is present but has no text node makes the
`unwrap` on its first text node abort the run, even though absence of the
element is not an error. -/
theorem c10_present_empty_optional_aborts (t : Nat) (frag : Fragment)
    (h : optionalPresentEmptyText frag) : extractEntry t frag = none := by
  cases hres : extractEntry t frag with
  | none => rfl
  | some e =>
    exfalso
    obtain ⟨_, _, _, _, _, _, _, d2, d3, d4, d5, _, _, _, _, _, _, _, hD2,
      hD3, hD4, hD5, _⟩ := extractEntry_eq_some t frag e hres
    rcases h with ⟨el, hel, hts⟩ | ⟨el, hel, hts⟩ | ⟨el, hel, hts⟩
      | ⟨el, hel, hts⟩
    · rw [optField_none_of_empty _ _ el hel hts _] at hD2
      exact Option.noConfusion hD2
    · rw [optField_none_of_empty _ _ el hel hts _] at hD3
      exact Option.noConfusion hD3
    · rw [optField_none_of_empty _ _ el hel hts _] at hD4
      exact Option.noConfusion hD4
    · rw [optField_none_of_empty _ _ el hel hts _] at hD5
      exact Option.noConfusion hD5

/-- Witness for C10: a condition element with no text node aborts the loop
body on the fixture fragment. -/
theorem c10_witness : extractEntry 7 exFragEmptyCond = none :=
  c10_present_empty_optional_aborts 7 exFragEmptyCond
    (Or.inl ⟨⟨[], []⟩, rfl, rfl⟩)

/-- C4: under extractable mandatory fields, extraction succeeds whether or
not the optional attributes are present, and the entry's description is the
single wrapping div holding one `<p>label: value</p>` line per present
field — price always first, then condition, time-left, purchase-options and
ad-label in that fixed order; an absent optional field contributes no line
and is not an error. -/
theorem c4_description_fixed_order (t : Nat) (frag : Fragment)
    (hm : mandatoryOk frag) (ho : optionalsOk frag) :
    ∃ e p, extractEntry t frag = some e
      ∧ optText frag.priceMatches = some p
      ∧ e.content = some { contentType := some "xhtml",
                           value := divOpen ++ "<p>Price: " ++ p ++ "</p>"
                             ++ optLine "Condition"
                                 (optText frag.conditionMatches)
                             ++ optLine "Time left"
                                 (optText frag.timeLeftMatches)
                             ++ optLine "Purchase options"
                                 (optText frag.purchaseOptionsMatches)
                             ++ optLine "Ad" (optText frag.adMatches)
                             ++ "</div>" } := by
  obtain ⟨⟨tEl, ti, hT, hTi⟩, ⟨lEl, href, caps, hL, hH, hC⟩,
    ⟨pEl, p, hP, hPt⟩⟩ := hm
  obtain ⟨hoc, hot, hop, hoa⟩ := ho
  refine ⟨{ title := ti, id := caps.1,
            links := [{ rel := "alternate", mimeType := some "text/html",
                        href := caps.1 }],
            content := some { contentType := some "xhtml",
                              value := divOpen ++ "<p>Price: " ++ p ++ "</p>"
                                ++ optLine "Condition"
                                    (optText frag.conditionMatches)
                                ++ optLine "Time left"
                                    (optText frag.timeLeftMatches)
                                ++ optLine "Purchase options"
                                    (optText frag.purchaseOptionsMatches)
                                ++ optLine "Ad" (optText frag.adMatches)
                                ++ "</div>" },
            updated := t }, p, ?_, ?_, rfl⟩
  · simp only [extractEntry, Option.bind_eq_bind, hT, hTi, hL, hH, hC, hP,
      hPt, optField_eq_optLine hoc, optField_eq_optLine hot,
      optField_eq_optLine hop, optField_eq_optLine hoa, Option.some_bind,
      Option.pure_def]
  · simp [optText, hP, hPt]

set_option maxRecDepth 8000 in
/-- Witness for C4 at the fixture fragment with all optional fields
present. -/
theorem c4_witness :
    ∃ e p, extractEntry 7 exFrag = some e
      ∧ optText exFrag.priceMatches = some p
      ∧ e.content = some { contentType := some "xhtml",
                           value := divOpen ++ "<p>Price: " ++ p ++ "</p>"
                             ++ optLine "Condition"
                                 (optText exFrag.conditionMatches)
                             ++ optLine "Time left"
                                 (optText exFrag.timeLeftMatches)
                             ++ optLine "Purchase options"
                                 (optText exFrag.purchaseOptionsMatches)
                             ++ optLine "Ad" (optText exFrag.adMatches)
                             ++ "</div>" } :=
  c4_description_fixed_order 7 exFrag
    ⟨⟨exTitleEl, "Widget", by decide, by decide⟩,
     ⟨exLinkEl, "https://www.ebay.com/itm/1234567890?hash=xyz",
       ("https://www.ebay.com/itm/1234567890", "1234567890"),
       by decide, by decide, by decide⟩,
     ⟨⟨[], ["$10"]⟩, "$10", by decide, by decide⟩⟩
    ⟨fun el h => by
        rw [show exFrag.conditionMatches.head? = some ⟨[], ["New"]⟩ from rfl,
          Option.some.injEq] at h
        rw [← h]
        decide,
     fun el h => by
        rw [show exFrag.timeLeftMatches.head? = some ⟨[], ["2d left"]⟩ from
          rfl, Option.some.injEq] at h
        rw [← h]
        decide,
     fun el h => by
        rw [show exFrag.purchaseOptionsMatches.head?
            = some ⟨[], ["Buy it now"]⟩ from rfl, Option.some.injEq] at h
        rw [← h]
        decide,
     fun el h => by
        rw [show exFrag.adMatches.head? = some ⟨[], ["Sponsored"]⟩ from rfl,
          Option.some.injEq] at h
        rw [← h]
        decide⟩

set_option maxRecDepth 8000 in
/-- C1 counterexample: on the fixture fragment the anchor href is
"https://www.ebay.com/itm/1234567890?hash=xyz", whose digit-only substring is
"1234567890"; but `main` stores `captures.get(0)` — the whole regex match
"https://www.ebay.com/itm/1234567890" — as the entry id (line 128), which is
35 characters and not the digit-only string. -/
theorem c1_counterexample :
    extractEntry 7 exFrag = some exEntry
      ∧ ((exLinkEl.attr "href").getD "").data.filter Char.isDigit
          = "1234567890".data
      ∧ exEntry.id = "https://www.ebay.com/itm/1234567890"
      ∧ exEntry.id ≠ "1234567890"
      ∧ exEntry.id.length ≠ 10 := by decide

/-- C1 amended: the entry id is not the digit-only substring of the link but
the whole match (capture group 0) of the regex `https.+(\d{10})` against the
anchor's href — a URL string that merely ends in the 10-digit numeric item
id. -/
theorem c1_amended_id_is_whole_url_match (t : Nat) (frag : Fragment)
    (e : Entry) (h : extractEntry t frag = some e) :
    ∃ linkEl href caps,
      frag.linkMatches.head? = some linkEl
        ∧ linkEl.attr "href" = some href
        ∧ urlRegexCaptures href = some caps
        ∧ e.id = caps.1
        ∧ caps.2.length = 10
        ∧ caps.2.data.all Char.isDigit = true
        ∧ ∃ pre, caps.1 = pre ++ caps.2 := by
  obtain ⟨_, _, lEl, href, caps, _, _, _, _, _, _, _, _, hL, hH, hC, _, _,
    _, _, _, _, he⟩ := extractEntry_eq_some t frag e h
  obtain ⟨hlen, hdig, hpre⟩ := urlRegexCaptures_group href caps.1 caps.2 hC
  exact ⟨lEl, href, caps, hL, hH, hC, by rw [he], hlen, hdig, hpre⟩

/-- Witness for the amended C1 at the fixture fragment. -/
theorem c1_witness :
    ∃ linkEl href caps,
      exFrag.linkMatches.head? = some linkEl
        ∧ linkEl.attr "href" = some href
        ∧ urlRegexCaptures href = some caps
        ∧ exEntry.id = caps.1
        ∧ caps.2.length = 10
        ∧ caps.2.data.all Char.isDigit = true
        ∧ ∃ pre, caps.1 = pre ++ caps.2 :=
  c1_amended_id_is_whole_url_match 7 exFrag exEntry extract_exFrag

set_option maxRecDepth 8000 in
/-- C8 counterexample: with a digit-bearing tracking suffix in the href, the
stored item URL is the whole 58-character greedy regex match — not the
36-character prefix the claim describes; and an href without a ten-digit run
makes extraction abort rather than degrade to truncation. -/
theorem c8_counterexample :
    extractEntry 7 exFragTracking = some exEntryTracking
      ∧ exEntryTracking.id = trackHref
      ∧ exEntryTracking.id ≠ trackHref.take 36
      ∧ exEntryTracking.id.length = 58
      ∧ extractEntry 7 exFragNoDigits = none := by decide

/-- C8 amended: the canonical item URL stored per entry is the full match of
the regex `https.+(\d{10})` against the anchor's href (it ends at the last
reachable ten-digit run and is not a fixed 36-character prefix); when the
pattern does not match the href, the run aborts instead of truncating. -/
theorem c8_amended_regex_match_or_abort (t : Nat) (frag : Fragment)
    (linkEl : Element) (href : String)
    (hL : frag.linkMatches.head? = some linkEl)
    (hH : linkEl.attr "href" = some href) :
    (urlRegexCaptures href = none → extractEntry t frag = none)
      ∧ ∀ e, extractEntry t frag = some e →
          ∃ caps, urlRegexCaptures href = some caps ∧ e.id = caps.1 := by
  constructor
  · intro hnone
    cases h1 : frag.titleMatches.head? with
    | none => simp [extractEntry, h1]
    | some tEl =>
      cases h2 : tEl.texts.getLast? with
      | none => simp [extractEntry, h1, h2]
      | some ti => simp [extractEntry, h1, h2, hL, hH, hnone]
  · intro e he
    obtain ⟨_, _, lEl', href', caps, _, _, _, _, _, _, _, _, hL', hH', hC,
      _, _, _, _, _, _, heq⟩ := extractEntry_eq_some t frag e he
    rw [hL] at hL'
    have hel : lEl' = linkEl := (Option.some.inj hL').symm
    subst hel
    rw [hH] at hH'
    have hhref : href' = href := (Option.some.inj hH').symm
    subst hhref
    exact ⟨caps, hC, by rw [heq]⟩

set_option maxRecDepth 8000 in
/-- Witness for the amended C8: on the fixture whose href has no ten-digit
run, the regex fails and the loop body aborts. -/
theorem c8_witness : extractEntry 7 exFragNoDigits = none :=
  (c8_amended_regex_match_or_abort 7 exFragNoDigits
      ⟨[("href", "https://example.com/nodigits")], []⟩
      "https://example.com/nodigits" (by decide) (by decide)).1 (by decide)
